import Mathlib

/-!
Shallow embedding of `src/vs/editor/contrib/rename/rename.ts`: the
`RenameSkeleton` provider fallback chain (`resolveRenameLocation`,
`provideRenameEdits`), the headless `rename` entry point, the
`_executeDocumentRenameProvider` command, and the `RenameController.run`
session control flow.

External collaborators (the text model's word lookup, the provider registry,
the input widget, the bulk edit service, context keys, notifications, the
editor-state snapshot) are represented by explicit data passed in through a
`RunEnv`, and the user-visible operations they would perform are recorded as
`Effect` values in the order the code performs them.
-/

namespace VSCodeRename

/-- A line/column pair (1-based), as `Position` from `core/position`. -/
structure Position where
  lineNumber : Int
  column : Int
deriving DecidableEq, Repr

/-- A document range, as `Range` from `core/range`. -/
structure Range where
  startLineNumber : Int
  startColumn : Int
  endLineNumber : Int
  endColumn : Int
deriving DecidableEq, Repr

/-- `Range.lift(range).getStartPosition()`. -/
def Range.getStartPosition (r : Range) : Position :=
  { lineNumber := r.startLineNumber, column := r.startColumn }

/-- Modelled from the spec: `Range.isEmpty` (range.ts is not part of the
embedded source) — a range is empty iff its start equals its end. -/
def Range.isEmpty (r : Range) : Bool :=
  decide (r.startLineNumber = r.endLineNumber) && decide (r.startColumn = r.endColumn)

/-- Modelled from the spec: `Range.spansMultipleLines` — the range covers more
than one line iff its start and end line differ. -/
def Range.spansMultipleLines (r : Range) : Bool :=
  decide (r.startLineNumber ≠ r.endLineNumber)

/-- Modelled from the spec: `Range.containsRange range other` — `other` is
fully contained in `range` (inclusive bounds on both sides). -/
def Range.containsRange (range other : Range) : Bool :=
  if other.startLineNumber < range.startLineNumber ∨ other.endLineNumber < range.startLineNumber then
    false
  else if other.startLineNumber > range.endLineNumber ∨ other.endLineNumber > range.endLineNumber then
    false
  else if other.startLineNumber = range.startLineNumber ∧ other.startColumn < range.startColumn then
    false
  else if other.endLineNumber = range.endLineNumber ∧ other.endColumn > range.endColumn then
    false
  else
    true

/-- A word under a position, as returned by `ITextModel.getWordAtPosition`. -/
structure WordAtPosition where
  word : String
  startColumn : Int
  endColumn : Int
deriving DecidableEq, Repr

/-- The text model, reduced to the one capability `rename.ts` reads directly:
`getWordAtPosition` (its implementation lives outside the embedded file and is
kept abstract). -/
structure TextModel where
  getWordAtPosition : Position → Option WordAtPosition

/-- Errors surfaced through promise rejection / `throw`. -/
inductive JsError where
  /-- a `TypeError` raised by reading a property of `undefined` -/
  | undefinedAccess (prop : String)
  /-- `illegalArgument(name)` from `base/common/errors` -/
  | illegalArgument (name : String)
  /-- an error thrown by an external provider or service -/
  | thrown (msg : String)
deriving DecidableEq, Repr

/-- `RenameLocation` from `editor/common/modes`. -/
structure RenameLocation where
  range : Range
  text : String
deriving DecidableEq, Repr

/-- `WorkspaceEdit`: `edits` is `undefined` (`none`) or a sequence of resource
text edits (kept abstract as strings); `rejectReason` is an optional string. -/
structure WorkspaceEdit where
  edits : Option (List String)
  rejectReason : Option String
deriving DecidableEq, Repr

/-- JavaScript truthiness of an optional string: defined and non-empty. -/
def strTruthy : Option String → Bool
  | none => false
  | some s => decide (s ≠ "")

/-- A rename provider: the optional `resolveRenameLocation` capability and the
required `provideRenameEdits`, both asynchronous and able to reject (throw).
The model and position arguments are passed explicitly, as in the source. -/
structure RenameProvider where
  resolveRenameLocation : Option (TextModel → Position → Except JsError (Option RenameLocation))
  provideRenameEdits : TextModel → Position → String → Except JsError (Option WorkspaceEdit)

/-- `nls.localize('no result', "No result.")`. -/
def noResultMessage : String := "No result."

/-- `RenameSkeleton`: `_provider` holds `RenameProviderRegistry.ordered(model)`,
supplied explicitly here because the registry is an external collaborator. -/
structure RenameSkeleton where
  model : TextModel
  position : Position
  _provider : List RenameProvider

/-- `RenameSkeleton.hasProvider`: `this._provider.length > 0`. -/
def RenameSkeleton.hasProvider (s : RenameSkeleton) : Bool :=
  decide (s._provider.length > 0)

/-- The value `res` holds after `if (provider.resolveRenameLocation) { res =
await ... }`: the provider's answer when it has the capability, `undefined`
(`none`) otherwise. -/
def providerLocation (q : RenameProvider) (m : TextModel) (p : Position) :
    Except JsError (Option RenameLocation) :=
  match q.resolveRenameLocation with
  | some f => f m p
  | none => .ok none

/-- `RenameSkeleton.resolveRenameLocation`.  `let [provider] = this._provider`
on an empty chain binds `provider` to `undefined`, so the subsequent
`provider.resolveRenameLocation` property read throws a `TypeError`; otherwise
only the first provider is queried, with the model's word-boundary lookup as
the fallback. -/
def RenameSkeleton.resolveRenameLocation (s : RenameSkeleton) :
    Except JsError (Option RenameLocation) :=
  match s._provider with
  | [] => .error (.undefinedAccess "resolveRenameLocation")
  | provider :: _ =>
    match providerLocation provider s.model s.position with
    | .error e => .error e
    | .ok (some r) => .ok (some r)
    | .ok none =>
      match s.model.getWordAtPosition s.position with
      | some word =>
        .ok (some { range := { startLineNumber := s.position.lineNumber,
                               startColumn := word.startColumn,
                               endLineNumber := s.position.lineNumber,
                               endColumn := word.endColumn },
                    text := word.word })
      | none => .ok none

/-- `RenameSkeleton.provideRenameEdits(newName, i, rejects, position)`.  The
body invokes `provider.provideRenameEdits(this.model, this.position, newName)`
— the `position` parameter is accepted but never read, exactly as in the
source — and the recursive calls leave `position` at its default
`this.position`.  A provider rejection (`.error`) propagates; `undefined`
results and truthy `rejectReason`s accumulate a reason and move to the next
provider. -/
def RenameSkeleton.provideRenameEdits (s : RenameSkeleton) (newName : String)
    (i : Nat) (rejects : List String) (position : Position) :
    Except JsError WorkspaceEdit :=
  if h : s._provider.length ≤ i then
    .ok { edits := none, rejectReason := some (String.intercalate "\n" rejects) }
  else
    let provider := s._provider.get ⟨i, by omega⟩
    match provider.provideRenameEdits s.model s.position newName with
    | .error e => .error e
    | .ok none =>
      s.provideRenameEdits newName (i + 1) (rejects ++ [noResultMessage]) s.position
    | .ok (some result) =>
      match result.rejectReason with
      | some reason =>
        if reason = "" then .ok result
        else s.provideRenameEdits newName (i + 1) (rejects ++ [reason]) s.position
      | none => .ok result
termination_by s._provider.length - i
decreasing_by all_goals (simp_wf; omega)

/-- The response provider `j` gives in session `s` for `newName`: the value of
`provider.provideRenameEdits(this.model, this.position, newName)`. -/
def providerResponse (s : RenameSkeleton) (n : String) (j : Nat) :
    Except JsError (Option WorkspaceEdit) :=
  match s._provider.get? j with
  | some q => q.provideRenameEdits s.model s.position n
  | none => .ok none

/-- A provider response that makes `provideRenameEdits` move on to the next
provider: no result, or a result with a truthy `rejectReason`.  (A thrown
error is not a soft failure — it aborts the chain.) -/
def failsSoft : Except JsError (Option WorkspaceEdit) → Bool
  | .ok none => true
  | .ok (some r) => strTruthy r.rejectReason
  | .error _ => false

/-- The reason `provideRenameEdits` accumulates for a softly failing provider
response: the result's `rejectReason`, or `"No result."` when the provider
yielded no result object. -/
def accumulatedReason : Except JsError (Option WorkspaceEdit) → String
  | .ok none => noResultMessage
  | .ok (some r) => r.rejectReason.getD noResultMessage
  | .error _ => noResultMessage

/-- The indices of the providers `provideRenameEdits` invokes when started at
index `i`, following the same sequential branching as the source: each step
invokes provider `i`, and continues with `i + 1` only on a soft failure. -/
def RenameSkeleton.invokedFrom (s : RenameSkeleton) (newName : String) (i : Nat) :
    List Nat :=
  if h : s._provider.length ≤ i then []
  else
    let provider := s._provider.get ⟨i, by omega⟩
    match provider.provideRenameEdits s.model s.position newName with
    | .error _ => [i]
    | .ok none => i :: s.invokedFrom newName (i + 1)
    | .ok (some result) =>
      match result.rejectReason with
      | some reason =>
        if reason = "" then [i]
        else i :: s.invokedFrom newName (i + 1)
      | none => [i]
termination_by s._provider.length - i
decreasing_by all_goals (simp_wf; omega)

/-- `export async function rename(model, position, newName)`: builds a
`RenameSkeleton` and runs `provideRenameEdits(newName)` with its default
arguments (`i = 0`, `rejects = []`, `position = this.position`).  The ordered
provider chain that `RenameProviderRegistry.ordered(model)` would supply is
passed explicitly. -/
def rename (provider : List RenameProvider) (model : TextModel)
    (position : Position) (newName : String) : Except JsError WorkspaceEdit :=
  (RenameSkeleton.mk model position provider).provideRenameEdits newName 0 [] position

/-- A JavaScript runtime value for the `newName` argument of the
`_executeDocumentRenameProvider` command: a string, or anything else. -/
inductive JsVal where
  | str (s : String)
  | nonString
deriving DecidableEq, Repr

/-- The `_executeDocumentRenameProvider` command: throws
`illegalArgument('newName')` when `typeof newName !== 'string'`, otherwise
delegates to `rename`. -/
def executeDocumentRenameProvider (provider : List RenameProvider)
    (model : TextModel) (position : Position) (newName : JsVal) :
    Except JsError WorkspaceEdit :=
  match newName with
  | .str s => rename provider model position s
  | .nonString => .error (.illegalArgument "newName")

instance {ε α : Type} [DecidableEq ε] [DecidableEq α] : DecidableEq (Except ε α) := by
  intro a b
  cases a <;> cases b <;> first
  | (apply isFalse; intro h; exact Except.noConfusion h)
  | (rename_i x y
     exact if h : x = y then isTrue (by rw [h]) else
       isFalse (fun hc => h (by cases hc; rfl)))

/-- Modelled from the spec: the four facets `EditorState` captures with flags
`Position | Value | Selection | Scroll` (editorState.ts is not part of the
embedded source): cursor position, document content version, selection, and
scroll position. -/
structure EditorFacets where
  position : Position
  versionId : Int
  selection : Range
  scroll : Int
deriving DecidableEq, Repr

/-- Modelled from the spec: `EditorState.validate(editor)` compares the captured
facets against the editor's current facets for equality, facet by facet. -/
def editorStateValidate (captured current : EditorFacets) : Bool :=
  decide (captured.position = current.position) &&
  decide (captured.versionId = current.versionId) &&
  decide (captured.selection = current.selection) &&
  decide (captured.scroll = current.scroll)

/-- What `_renameInputField.getInput` resolves to: a confirmed new-name string,
a boolean cancel/focus flag, or a rejection. -/
inductive InputResult where
  | newName (s : String)
  | focusFlag (b : Bool)
  | inputError (e : JsError)
deriving DecidableEq, Repr

/-- The arguments `run` passes to `_renameInputField.getInput`. -/
structure InputRequest where
  range : Range
  text : String
  selectionStart : Int
  selectionEnd : Int
deriving DecidableEq, Repr

/-- `IBulkEditService.apply` result: optionally an `ariaSummary`. -/
structure ApplyResult where
  ariaSummary : Option String
deriving DecidableEq, Repr

/-- A user-visible operation performed by `RenameController.run` on one of its
external collaborators, in program order. -/
inductive Effect where
  /-- `MessageController.showMessage(e, position)` for a caught location error -/
  | showErrorMessage (e : JsError) (pos : Position)
  /-- `MessageController.showMessage(rejectReason, position)` -/
  | showMessage (msg : String) (pos : Position)
  /-- `_notificationService.info(msg)` -/
  | notifyInfo (msg : String)
  /-- `_notificationService.error(msg)` -/
  | notifyError (msg : String)
  /-- `_bulkEditService.apply(edit)` -/
  | applyEdit (edit : WorkspaceEdit)
  /-- `alert(...)` announcing a successful rename -/
  | ariaAlert (oldName newName summary : String)
  /-- `this.editor.focus()` -/
  | focusEditor
deriving DecidableEq, Repr

/-- The inputs one `RenameController.run` session reads from its external
collaborators: the model with its ordered provider chain, the editor's live
position and selection at session start, what the input widget resolves to,
the editor facets when the `EditorState` snapshot is taken after input
confirmation, the facets at edit-resolution completion, and the bulk-edit
service's outcome. -/
structure RunEnv where
  model : TextModel
  provider : List RenameProvider
  position : Position
  selection : Range
  inputResult : InputResult
  facetsAtConfirm : EditorFacets
  facetsAtResolve : EditorFacets
  applyResult : Except JsError ApplyResult

/-- Everything observable about one `run` session: the effects performed, the
successive values written to the `renameInputVisible` context key, the
`getInput` request (if the widget was shown), whether `resolveRenameLocation`
was called, which edit providers were invoked, and how the returned promise
settled. -/
structure RunResult where
  effects : List Effect
  flagTrace : List Bool
  inputRequest : Option InputRequest
  locationQueried : Bool
  editProvidersInvoked : List Nat
  returned : Except JsError Unit
deriving DecidableEq, Repr

/-- The value of the `renameInputVisible` context key after a trace of writes;
the key's default value is `false`. -/
def finalFlag (trace : List Bool) : Bool :=
  trace.foldl (fun _ b => b) false

/-- The skeleton `run` constructs: `new RenameSkeleton(this.editor.getModel(),
position)`, with the registry's ordered chain supplied by the environment. -/
def sessionSkeleton (env : RunEnv) : RenameSkeleton :=
  { model := env.model, position := env.position, _provider := env.provider }

/-- The selection pre-fill computation of `RenameController.run`: offsets
relative to the symbol text, defaulting to the whole text, overridden when the
editor selection is non-empty, single-line and contained in the resolved
range. -/
def computePrefill (loc : RenameLocation) (selection : Range) : Int × Int :=
  let selectionStart : Int := 0
  let selectionEnd : Int := loc.text.length
  if !(Range.isEmpty selection) && !(Range.spansMultipleLines selection) &&
      Range.containsRange loc.range selection then
    (max 0 (selection.startColumn - loc.range.startColumn),
     min loc.range.endColumn selection.endColumn - loc.range.startColumn)
  else
    (selectionStart, selectionEnd)

/-- `RenameController.run`, as a function from the session's external inputs to
its observable behaviour.  The control flow follows the source: bail out when
there is no provider; resolve the location (showing a caught error inline at
the run-start position); compute the selection pre-fill; set the visibility
flag, await the input widget, and reset the flag first thing in both
continuations; on a confirmed name, focus the editor, snapshot the editor
state, resolve the edits from the resolved range's start position, and either
route a truthy `rejectReason` by staleness (inline message at the current
cursor vs. passive notification) or apply the edit and announce the summary;
a provider rejection produces the generic failure notification and propagates.
(The 250ms progress indicator has no observable effect modelled here.) -/
def RenameController.run (env : RunEnv) : RunResult :=
  let position := env.position
  let skeleton := sessionSkeleton env
  if skeleton.hasProvider = false then
    { effects := [], flagTrace := [], inputRequest := none,
      locationQueried := false, editProvidersInvoked := [], returned := .ok () }
  else
    match skeleton.resolveRenameLocation with
    | .error e =>
      { effects := [.showErrorMessage e position], flagTrace := [],
        inputRequest := none, locationQueried := true,
        editProvidersInvoked := [], returned := .ok () }
    | .ok none =>
      { effects := [], flagTrace := [], inputRequest := none,
        locationQueried := true, editProvidersInvoked := [],
        returned := .ok () }
    | .ok (some loc) =>
      let sel := computePrefill loc env.selection
      let request : InputRequest :=
        { range := loc.range, text := loc.text,
          selectionStart := sel.1, selectionEnd := sel.2 }
      match env.inputResult with
      | .focusFlag b =>
        { effects := if b then [.focusEditor] else [],
          flagTrace := [true, false], inputRequest := some request,
          locationQueried := true, editProvidersInvoked := [],
          returned := .ok () }
      | .inputError e =>
        { effects := [], flagTrace := [true, false],
          inputRequest := some request, locationQueried := true,
          editProvidersInvoked := [], returned := .error e }
      | .newName newName =>
        let state := env.facetsAtConfirm
        match skeleton.provideRenameEdits newName 0 [] loc.range.getStartPosition with
        | .error err =>
          { effects := [.focusEditor, .notifyError "Rename failed to execute."],
            flagTrace := [true, false], inputRequest := some request,
            locationQueried := true,
            editProvidersInvoked := skeleton.invokedFrom newName 0,
            returned := .error err }
        | .ok result =>
          if strTruthy result.rejectReason then
            if editorStateValidate state env.facetsAtResolve then
              { effects := [.focusEditor,
                            .showMessage (result.rejectReason.getD "") env.facetsAtResolve.position],
                flagTrace := [true, false], inputRequest := some request,
                locationQueried := true,
                editProvidersInvoked := skeleton.invokedFrom newName 0,
                returned := .ok () }
            else
              { effects := [.focusEditor, .notifyInfo (result.rejectReason.getD "")],
                flagTrace := [true, false], inputRequest := some request,
                locationQueried := true,
                editProvidersInvoked := skeleton.invokedFrom newName 0,
                returned := .ok () }
          else
            match env.applyResult with
            | .error e =>
              { effects := [.focusEditor, .applyEdit result],
                flagTrace := [true, false], inputRequest := some request,
                locationQueried := true,
                editProvidersInvoked := skeleton.invokedFrom newName 0,
                returned := .error e }
            | .ok applyRes =>
              match applyRes.ariaSummary with
              | some summary =>
                { effects := [.focusEditor, .applyEdit result,
                              .ariaAlert loc.text newName summary],
                  flagTrace := [true, false], inputRequest := some request,
                  locationQueried := true,
                  editProvidersInvoked := skeleton.invokedFrom newName 0,
                  returned := .ok () }
              | none =>
                { effects := [.focusEditor, .applyEdit result],
                  flagTrace := [true, false], inputRequest := some request,
                  locationQueried := true,
                  editProvidersInvoked := skeleton.invokedFrom newName 0,
                  returned := .ok () }

/-! Concrete sample data used to evaluate the definitions on closed inputs. -/

/-- A sample text model: the word "foo" spans columns [5,8) of line 1 and is
found under position (1,6); elsewhere there is no word. -/
def sampleModel : TextModel :=
  { getWordAtPosition := fun p =>
      if p = { lineNumber := 1, column := 6 } then
        some { word := "foo", startColumn := 5, endColumn := 8 }
      else none }

/-- The sample cursor position (1,6), inside the word "foo". -/
def samplePos : Position := { lineNumber := 1, column := 6 }

/-- A provider with no location capability whose edit call yields no result. -/
def pNoRes : RenameProvider :=
  { resolveRenameLocation := none, provideRenameEdits := fun _ _ _ => .ok none }

/-- A provider that rejects every rename with reason "busy". -/
def pBusy : RenameProvider :=
  { resolveRenameLocation := none,
    provideRenameEdits := fun _ _ _ =>
      .ok (some { edits := none, rejectReason := some "busy" }) }

/-- The successful sample edit. -/
def okEdit : WorkspaceEdit := { edits := some ["edit"], rejectReason := none }

/-- A provider that succeeds with `okEdit`. -/
def pOk : RenameProvider :=
  { resolveRenameLocation := none,
    provideRenameEdits := fun _ _ _ => .ok (some okEdit) }

/-- A provider whose edit call throws `msg`. -/
def pThrow (msg : String) : RenameProvider :=
  { resolveRenameLocation := none,
    provideRenameEdits := fun _ _ _ => .error (.thrown msg) }

/-- The edit a position-probing provider answers when invoked at the anchor
position (1,5) — the start of the resolved range. -/
def anchorEdit : WorkspaceEdit := { edits := some ["from anchor"], rejectReason := none }

/-- The edit a position-probing provider answers when invoked at any other
position, in particular the live cursor position (1,10). -/
def cursorEdit : WorkspaceEdit := { edits := some ["from cursor"], rejectReason := none }

/-- A provider that reports which position argument it was invoked with:
`anchorEdit` at (1,5), `cursorEdit` elsewhere. -/
def probeProvider : RenameProvider :=
  { resolveRenameLocation := none,
    provideRenameEdits := fun _ pos _ =>
      if pos = { lineNumber := 1, column := 5 } then .ok (some anchorEdit)
      else .ok (some cursorEdit) }

/-- A skeleton whose construction position — the live cursor — is (1,10),
while the resolved range starts at (1,5). -/
def probeSkeleton : RenameSkeleton :=
  { model := sampleModel, position := { lineNumber := 1, column := 10 },
    _provider := [probeProvider] }

/-- The sample editor facets at input confirmation. -/
def facets1 : EditorFacets :=
  { position := samplePos, versionId := 1,
    selection := { startLineNumber := 1, startColumn := 6, endLineNumber := 1, endColumn := 6 },
    scroll := 0 }

/-- The same facets with a bumped content version: the document changed while
the providers were computing. -/
def facets2 : EditorFacets :=
  { position := samplePos, versionId := 2,
    selection := { startLineNumber := 1, startColumn := 6, endLineNumber := 1, endColumn := 6 },
    scroll := 0 }

/-- A session in which the single provider rejects with "busy" and the document
version changes between input confirmation and edit resolution. -/
def staleEnv : RunEnv :=
  { model := sampleModel, provider := [pBusy], position := samplePos,
    selection := { startLineNumber := 1, startColumn := 6, endLineNumber := 1, endColumn := 6 },
    inputResult := .newName "bar",
    facetsAtConfirm := facets1, facetsAtResolve := facets2,
    applyResult := .ok { ariaSummary := none } }

/-- The same session with an unchanged editor state. -/
def freshEnv : RunEnv :=
  { staleEnv with facetsAtResolve := facets1 }

/-- A session that is cancelled at the input widget (with focus restore). -/
def cancelledEnv : RunEnv :=
  { staleEnv with inputResult := .focusFlag true }

/-- A model for the selection pre-fill example: the word "fooBarX" spans
columns [5,12) of line 1 under position (1,7). -/
def prefillModel : TextModel :=
  { getWordAtPosition := fun p =>
      if p = { lineNumber := 1, column := 7 } then
        some { word := "fooBarX", startColumn := 5, endColumn := 12 }
      else none }

/-- The selection pre-fill example session: resolved range [5,12) with text
"fooBarX", editor selection [7,9) on the same line, cancelled at the widget. -/
def prefillEnv : RunEnv :=
  { model := prefillModel, provider := [pNoRes],
    position := { lineNumber := 1, column := 7 },
    selection := { startLineNumber := 1, startColumn := 7, endLineNumber := 1, endColumn := 9 },
    inputResult := .focusFlag false,
    facetsAtConfirm := facets1, facetsAtResolve := facets1,
    applyResult := .ok { ariaSummary := none } }

/-! Helper lemmas about the provider fallback chain. -/

lemma providerResponse_eq (s : RenameSkeleton) (n : String) (i : Nat)
    (h : i < s._provider.length) :
    providerResponse s n i =
      (s._provider.get ⟨i, h⟩).provideRenameEdits s.model s.position n := by
  unfold providerResponse
  rw [List.get?_eq_get h]

lemma provideRenameEdits_allSoftFail_from (s : RenameSkeleton) (n : String) :
    ∀ d i rejects pos, s._provider.length - i = d →
      (∀ j, i ≤ j → j < s._provider.length → failsSoft (providerResponse s n j) = true) →
      s.provideRenameEdits n i rejects pos =
        .ok { edits := none,
              rejectReason := some (String.intercalate "\n"
                (rejects ++ (s._provider.drop i).map
                  (fun q => accumulatedReason (q.provideRenameEdits s.model s.position n)))) } := by
  intro d
  induction d with
  | zero =>
    intro i rejects pos hd hfail
    have hle : s._provider.length ≤ i := by omega
    rw [RenameSkeleton.provideRenameEdits, dif_pos hle, List.drop_eq_nil_of_le hle,
      List.map_nil, List.append_nil]
  | succ d ih =>
    intro i rejects pos hd hfail
    have hlt : i < s._provider.length := by omega
    have hf := hfail i le_rfl hlt
    rw [providerResponse_eq s n i hlt] at hf
    rw [RenameSkeleton.provideRenameEdits, dif_neg (by omega)]
    rw [List.drop_eq_getElem_cons hlt, List.map_cons]
    dsimp only
    rcases hq : (s._provider.get ⟨i, hlt⟩).provideRenameEdits s.model s.position n with e | or
    · rw [hq] at hf; simp [failsSoft] at hf
    · rcases or with _ | r
      · dsimp only
        rw [ih (i + 1) (rejects ++ [noResultMessage]) s.position (by omega)
          (fun j h1 h2 => hfail j (by omega) h2)]
        simp [accumulatedReason, List.append_assoc]
      · rw [hq] at hf
        simp only [failsSoft] at hf
        rcases hrr : r.rejectReason with _ | reason
        · rw [hrr] at hf; simp [strTruthy] at hf
        · rw [hrr] at hf
          simp only [strTruthy, decide_eq_true_eq] at hf
          dsimp only
          rw [hrr]
          dsimp only
          rw [if_neg hf]
          rw [ih (i + 1) (rejects ++ [reason]) s.position (by omega)
            (fun j h1 h2 => hfail j (by omega) h2)]
          simp [accumulatedReason, hrr, List.append_assoc]

lemma provideRenameEdits_firstWin_from (s : RenameSkeleton) (n : String) :
    ∀ d i rejects pos k r, s._provider.length - i = d →
      i ≤ k → k < s._provider.length →
      (∀ j, i ≤ j → j < k → failsSoft (providerResponse s n j) = true) →
      providerResponse s n k = .ok (some r) →
      r.rejectReason = none →
      s.provideRenameEdits n i rejects pos = .ok r ∧
      s.invokedFrom n i = List.range' i (k - i + 1) := by
  intro d
  induction d with
  | zero =>
    intro i rejects pos k r hd hik hk hfail hwin hnone
    exact absurd hk (by omega)
  | succ d ih =>
    intro i rejects pos k r hd hik hk hfail hwin hnone
    have hlt : i < s._provider.length := by omega
    rw [RenameSkeleton.provideRenameEdits, dif_neg (by omega),
        RenameSkeleton.invokedFrom, dif_neg (by omega)]
    dsimp only
    rcases Nat.eq_or_lt_of_le hik with heq | hik2
    · subst heq
      rw [providerResponse_eq s n i hlt] at hwin
      rcases hq : (s._provider.get ⟨i, hlt⟩).provideRenameEdits s.model s.position n with e | or
      · rw [hq] at hwin; exact absurd hwin (by simp)
      · rw [hq] at hwin
        have hor : or = some r := by
          injection hwin
        subst hor
        dsimp only
        rw [hnone]
        dsimp only
        constructor
        · rfl
        · simp [List.range']
    · have hf := hfail i le_rfl hik2
      rw [providerResponse_eq s n i hlt] at hf
      rcases hq : (s._provider.get ⟨i, hlt⟩).provideRenameEdits s.model s.position n with e | or
      · rw [hq] at hf; simp [failsSoft] at hf
      · rcases or with _ | rr
        · dsimp only
          have step := ih (i + 1) (rejects ++ [noResultMessage]) s.position k r (by omega)
            (by omega) hk (fun j h1 h2 => hfail j (by omega) h2) hwin hnone
          refine ⟨step.1, ?_⟩
          rw [step.2]
          have hcons : List.range' i (k - i + 1) = i :: List.range' (i + 1) (k - (i + 1) + 1) := by
            have h2 : k - i + 1 = (k - (i + 1) + 1) + 1 := by omega
            rw [h2]
            exact List.range'_succ i (k - (i + 1) + 1) 1
          rw [hcons]
        · rw [hq] at hf
          simp only [failsSoft] at hf
          rcases hrr : rr.rejectReason with _ | reason
          · rw [hrr] at hf; simp [strTruthy] at hf
          · rw [hrr] at hf
            simp only [strTruthy, decide_eq_true_eq] at hf
            dsimp only
            rw [hrr]
            dsimp only
            simp only [if_neg hf]
            have step := ih (i + 1) (rejects ++ [reason]) s.position k r (by omega)
              (by omega) hk (fun j h1 h2 => hfail j (by omega) h2) hwin hnone
            refine ⟨step.1, ?_⟩
            rw [step.2]
            have hcons : List.range' i (k - i + 1) = i :: List.range' (i + 1) (k - (i + 1) + 1) := by
              have h2 : k - i + 1 = (k - (i + 1) + 1) + 1 := by omega
              rw [h2]
              exact List.range'_succ i (k - (i + 1) + 1) 1
            rw [hcons]

lemma editorStateValidate_eq_true_iff (a b : EditorFacets) :
    editorStateValidate a b = true ↔ a = b := by
  unfold editorStateValidate
  constructor
  · intro h
    simp only [Bool.and_eq_true, decide_eq_true_eq] at h
    obtain ⟨⟨⟨h1, h2⟩, h3⟩, h4⟩ := h
    cases a; cases b
    simp_all
  · intro h
    subst h
    simp

/-! Claim theorems. -/

/-- C1 (counterexample): the claim fails when a provider ahead of the winner
throws instead of failing softly.  In the chain `[pThrow "a", pOk, pNoRes]`,
provider 1 (`pOk`) is the first to return a result with no `rejectReason`
(provider 0 returns no result at all — it throws), yet `provideRenameEdits`
does not return `pOk`'s edit: the thrown error propagates and aborts the
chain. -/
theorem claim1_counterexample :
    providerResponse (RenameSkeleton.mk sampleModel samplePos [pThrow "a", pOk, pNoRes]) "bar" 0 =
      .error (.thrown "a") ∧
    providerResponse (RenameSkeleton.mk sampleModel samplePos [pThrow "a", pOk, pNoRes]) "bar" 1 =
      .ok (some okEdit) ∧
    okEdit.rejectReason = none ∧
    (RenameSkeleton.mk sampleModel samplePos [pThrow "a", pOk, pNoRes]).provideRenameEdits
        "bar" 0 [] samplePos = .error (.thrown "a") ∧
    (RenameSkeleton.mk sampleModel samplePos [pThrow "a", pOk, pNoRes]).provideRenameEdits
        "bar" 0 [] samplePos ≠ .ok okEdit := by
  have heq : (RenameSkeleton.mk sampleModel samplePos [pThrow "a", pOk, pNoRes]).provideRenameEdits
      "bar" 0 [] samplePos = .error (.thrown "a") := by
    simp [RenameSkeleton.provideRenameEdits, pThrow]
  exact ⟨by decide, by decide, rfl, heq, by rw [heq]; decide⟩

/-- C1 (amended): if every provider before index `k` fails softly (yields no
result, or a result with a truthy `rejectReason`) and provider `k` is the
first to return a result with no `rejectReason`, then `provideRenameEdits`
returns provider `k`'s `WorkspaceEdit` unchanged, every provider up to and
including `k` is invoked in order, and no provider after `k` is invoked. -/
theorem provideRenameEdits_first_winner (s : RenameSkeleton) (newName : String)
    (pos : Position) (k : Nat) (r : WorkspaceEdit)
    (hk : k < s._provider.length)
    (hbefore : ∀ j, j < k → failsSoft (providerResponse s newName j) = true)
    (hwin : providerResponse s newName k = .ok (some r))
    (hnone : r.rejectReason = none) :
    s.provideRenameEdits newName 0 [] pos = .ok r ∧
    s.invokedFrom newName 0 = List.range (k + 1) := by
  have h := provideRenameEdits_firstWin_from s newName s._provider.length 0 [] pos k r
    (by omega) (Nat.zero_le k) hk (fun j h1 h2 => hbefore j h2) hwin hnone
  refine ⟨h.1, ?_⟩
  rw [h.2, List.range_eq_range']
  norm_num

/-- Witness for C1 (amended): in the chain `[pNoRes, pBusy, pOk, pThrow]`,
provider 2 wins; its edit is returned and exactly providers 0, 1, 2 are
invoked. -/
theorem provideRenameEdits_first_winner_witness :
    (RenameSkeleton.mk sampleModel samplePos [pNoRes, pBusy, pOk, pThrow "never"]).provideRenameEdits
        "bar" 0 [] samplePos = .ok okEdit ∧
    (RenameSkeleton.mk sampleModel samplePos [pNoRes, pBusy, pOk, pThrow "never"]).invokedFrom
        "bar" 0 = List.range 3 :=
  provideRenameEdits_first_winner
    (RenameSkeleton.mk sampleModel samplePos [pNoRes, pBusy, pOk, pThrow "never"])
    "bar" samplePos 2 okEdit (by decide) (by decide) (by decide) rfl

/-- C2 (counterexample): the claim fails when a provider throws: with the
single-provider chain `[pThrow "boom"]`, `provideRenameEdits` does not return
a `WorkspaceEdit` with the accumulated reason "boom" — the error propagates
instead. -/
theorem claim2_counterexample :
    (RenameSkeleton.mk sampleModel samplePos [pThrow "boom"]).provideRenameEdits
        "bar" 0 [] samplePos = .error (.thrown "boom") ∧
    (RenameSkeleton.mk sampleModel samplePos [pThrow "boom"]).provideRenameEdits
        "bar" 0 [] samplePos ≠
      .ok { edits := none, rejectReason := some "boom" } := by
  have heq : (RenameSkeleton.mk sampleModel samplePos [pThrow "boom"]).provideRenameEdits
      "bar" 0 [] samplePos = .error (.thrown "boom") := by
    simp [RenameSkeleton.provideRenameEdits, pThrow]
  exact ⟨heq, by rw [heq]; decide⟩

/-- C2 (amended): when every provider in the chain fails softly (yields no
result or a result with a truthy `rejectReason`; a throwing provider instead
aborts the chain with its error), `provideRenameEdits` returns a
`WorkspaceEdit` with `edits = undefined` and `rejectReason` equal to the
accumulated reasons joined by newlines in chain order, with "No result."
substituted for a provider that yielded no result object; for the empty chain
this joined reason is the empty string. -/
theorem provideRenameEdits_all_fail (s : RenameSkeleton) (newName : String) (pos : Position)
    (hfail : ∀ j, j < s._provider.length → failsSoft (providerResponse s newName j) = true) :
    s.provideRenameEdits newName 0 [] pos =
      .ok { edits := none,
            rejectReason := some (String.intercalate "\n"
              (s._provider.map
                (fun q => accumulatedReason (q.provideRenameEdits s.model s.position newName)))) } := by
  have h := provideRenameEdits_allSoftFail_from s newName s._provider.length 0 [] pos
    (by omega) (fun j h1 h2 => hfail j h2)
  simpa using h

/-- Witness for C2 (amended): the chain `[pNoRes, pBusy]` produces the joined
reason "No result.\nbusy", and the empty chain produces the empty reason. -/
theorem provideRenameEdits_all_fail_witness :
    (RenameSkeleton.mk sampleModel samplePos [pNoRes, pBusy]).provideRenameEdits
        "bar" 0 [] samplePos =
      .ok { edits := none, rejectReason := some "No result.\nbusy" } ∧
    (RenameSkeleton.mk sampleModel samplePos []).provideRenameEdits
        "bar" 0 [] samplePos =
      .ok { edits := none, rejectReason := some "" } :=
  ⟨(provideRenameEdits_all_fail (RenameSkeleton.mk sampleModel samplePos [pNoRes, pBusy])
      "bar" samplePos (by decide)).trans (by decide),
   (provideRenameEdits_all_fail (RenameSkeleton.mk sampleModel samplePos [])
      "bar" samplePos (by decide)).trans (by decide)⟩

/-- C3 (code bug): `provideRenameEdits` accepts a `position` parameter — the
orchestrator passes the resolved range's start position (1,5) — but the body
invokes every provider with `this.position`, the skeleton's construction
position (the live cursor (1,10)).  A provider that answers `anchorEdit` at
(1,5) and `cursorEdit` elsewhere therefore yields `cursorEdit`, although
invoking it directly at the anchor position yields `anchorEdit`. -/
theorem claim3_position_argument_ignored :
    probeSkeleton.provideRenameEdits "bar" 0 []
        { lineNumber := 1, column := 5 } = .ok cursorEdit ∧
    probeProvider.provideRenameEdits probeSkeleton.model
        { lineNumber := 1, column := 5 } "bar" = .ok (some anchorEdit) ∧
    cursorEdit ≠ anchorEdit := by
  refine ⟨?_, by decide, by decide⟩
  simp [RenameSkeleton.provideRenameEdits, probeSkeleton, probeProvider, cursorEdit]

/-- C6: the programmatic entry `_executeDocumentRenameProvider` fails fast with
`illegalArgument('newName')` whenever `newName` is not a string, and for a
string it returns exactly the result of the provider fallback chain
(`RenameSkeleton.provideRenameEdits` with its default arguments) — no UI
effect is involved. -/
theorem executeDocumentRenameProvider_contract (provider : List RenameProvider)
    (model : TextModel) (position : Position) :
    executeDocumentRenameProvider provider model position JsVal.nonString =
      .error (.illegalArgument "newName") ∧
    ∀ s : String,
      executeDocumentRenameProvider provider model position (JsVal.str s) =
        (RenameSkeleton.mk model position provider).provideRenameEdits s 0 [] position :=
  ⟨rfl, fun _ => rfl⟩

/-- C7: when the first provider supplies no rename-location override and the
position lies inside a word token, `resolveRenameLocation` returns exactly
that word's span — on the position's line, from the word's start column to its
end column — and the word's text; and it returns `none` only when neither the
first provider nor the word-boundary lookup produces a location. -/
theorem resolveRenameLocation_word_fallback (m : TextModel) (p : Position)
    (q : RenameProvider) (rest : List RenameProvider) (w : WordAtPosition)
    (hprov : providerLocation q m p = .ok none)
    (hword : m.getWordAtPosition p = some w) :
    (RenameSkeleton.mk m p (q :: rest)).resolveRenameLocation =
      .ok (some { range := { startLineNumber := p.lineNumber, startColumn := w.startColumn,
                             endLineNumber := p.lineNumber, endColumn := w.endColumn },
                  text := w.word }) ∧
    ∀ (m2 : TextModel) (p2 : Position) (q2 : RenameProvider) (rest2 : List RenameProvider),
      (RenameSkeleton.mk m2 p2 (q2 :: rest2)).resolveRenameLocation = .ok none →
      providerLocation q2 m2 p2 = .ok none ∧ m2.getWordAtPosition p2 = none := by
  constructor
  · unfold RenameSkeleton.resolveRenameLocation
    dsimp only
    rw [hprov]
    dsimp only
    rw [hword]
  · intro m2 p2 q2 rest2 h
    unfold RenameSkeleton.resolveRenameLocation at h
    dsimp only at h
    rcases hpl : providerLocation q2 m2 p2 with e | or
    · rw [hpl] at h
      exact absurd h (by simp)
    · rcases or with _ | r
      · rw [hpl] at h
        dsimp only at h
        rcases hw : m2.getWordAtPosition p2 with _ | w2
        · exact ⟨rfl, rfl⟩
        · rw [hw] at h
          exact absurd h (by simp)
      · rw [hpl] at h
        exact absurd h (by simp)

/-- Witness for C7: with `sampleModel` (word "foo" on columns [5,8) under
(1,6)) and a capability-less first provider, `resolveRenameLocation` returns
the word's span and text. -/
theorem resolveRenameLocation_word_fallback_witness :
    (RenameSkeleton.mk sampleModel samplePos [pNoRes]).resolveRenameLocation =
      .ok (some { range := { startLineNumber := 1, startColumn := 5,
                             endLineNumber := 1, endColumn := 8 },
                  text := "foo" }) :=
  ((resolveRenameLocation_word_fallback sampleModel samplePos pNoRes []
      { word := "foo", startColumn := 5, endColumn := 8 } rfl (by decide)).1).trans (by decide)

/-- C10: `resolveRenameLocation` is only safe under `hasProvider()`: when
`hasProvider()` is false the chain is empty and the call throws the
undefined-dereference `TypeError` instead of returning `none`; on a non-empty
chain the result is exactly that of a chain holding the first provider alone,
so the error branch is unreachable and only the first provider is consulted. -/
theorem resolveRenameLocation_requires_provider (m : TextModel) (p : Position)
    (ps : List RenameProvider) :
    ((RenameSkeleton.mk m p ps).hasProvider = false →
      (RenameSkeleton.mk m p ps).resolveRenameLocation =
        .error (.undefinedAccess "resolveRenameLocation")) ∧
    ∀ (q : RenameProvider) (rest : List RenameProvider), ps = q :: rest →
      (RenameSkeleton.mk m p ps).resolveRenameLocation =
        (RenameSkeleton.mk m p [q]).resolveRenameLocation := by
  constructor
  · intro h
    have hnil : ps = [] := by
      cases ps with
      | nil => rfl
      | cons q rest => simp [RenameSkeleton.hasProvider] at h
    subst hnil
    rfl
  · intro q rest hps
    subst hps
    rfl

/-- Witness for C10: the empty chain throws the undefined-dereference error,
and a two-provider chain resolves its location exactly as the first provider
alone would. -/
theorem resolveRenameLocation_requires_provider_witness :
    (RenameSkeleton.mk sampleModel samplePos ([] : List RenameProvider)).resolveRenameLocation =
      .error (.undefinedAccess "resolveRenameLocation") ∧
    (RenameSkeleton.mk sampleModel samplePos [pNoRes, pBusy]).resolveRenameLocation =
      (RenameSkeleton.mk sampleModel samplePos [pNoRes]).resolveRenameLocation :=
  ⟨(resolveRenameLocation_requires_provider sampleModel samplePos []).1 (by decide),
   (resolveRenameLocation_requires_provider sampleModel samplePos [pNoRes, pBusy]).2
     pNoRes [pBusy] rfl⟩

/-- C9: for a document whose ordered provider chain is empty, starting an
interactive rename session is a silent no-op: no effect is performed, the
visibility flag is never written, the input widget is never shown, the
location is never queried, no edit provider is invoked, and the session
resolves to `undefined`. -/
theorem run_noProvider_silent_noop (env : RunEnv) :
    RenameController.run { env with provider := [] } =
      { effects := [], flagTrace := [], inputRequest := none,
        locationQueried := false, editProvidersInvoked := [], returned := .ok () } :=
  rfl

/-- C5: the `renameInputVisible` context flag is written `true` exactly once,
immediately before awaiting the input widget, and reset on every continuation
— confirmation, cancellation, and input-widget error alike — so its trace is
`[true, false]` whenever the widget was shown and empty otherwise, and after
every terminal outcome of a session the flag is `false`. -/
theorem run_inputVisible_flag_lifecycle (env : RunEnv) :
    finalFlag (RenameController.run env).flagTrace = false ∧
    ((RenameController.run env).inputRequest.isSome = true →
      (RenameController.run env).flagTrace = [true, false]) ∧
    ((RenameController.run env).inputRequest = none →
      (RenameController.run env).flagTrace = []) := by
  unfold RenameController.run
  dsimp only
  repeat' split
  all_goals simp [finalFlag]

/-- Witness for C5: in the cancelled sample session the widget was shown, the
flag trace is exactly `[true, false]`, and the flag ends `false`. -/
theorem run_inputVisible_flag_lifecycle_witness :
    finalFlag (RenameController.run cancelledEnv).flagTrace = false ∧
    (RenameController.run cancelledEnv).flagTrace = [true, false] :=
  ⟨(run_inputVisible_flag_lifecycle cancelledEnv).1,
   (run_inputVisible_flag_lifecycle cancelledEnv).2.1 (by decide)⟩

/-- C4: when edit resolution completes with a truthy `rejectReason`, the
session compares the captured editor state with the current one: if any of the
four facets (position, content version, selection, scroll) changed, the reason
is surfaced as a passive informational notification; if none changed, it is
shown inline at the current cursor position; in either case no edit is
applied. -/
theorem run_rejectReason_staleness_routing (env : RunEnv) (loc : RenameLocation)
    (newName : String) (result : WorkspaceEdit) (reason : String)
    (hinput : env.inputResult = .newName newName)
    (hloc : (sessionSkeleton env).resolveRenameLocation = .ok (some loc))
    (hres : (sessionSkeleton env).provideRenameEdits newName 0 [] loc.range.getStartPosition
      = .ok result)
    (hreason : result.rejectReason = some reason)
    (hne : reason ≠ "") :
    ((env.facetsAtConfirm.position ≠ env.facetsAtResolve.position ∨
      env.facetsAtConfirm.versionId ≠ env.facetsAtResolve.versionId ∨
      env.facetsAtConfirm.selection ≠ env.facetsAtResolve.selection ∨
      env.facetsAtConfirm.scroll ≠ env.facetsAtResolve.scroll) →
      (RenameController.run env).effects = [.focusEditor, .notifyInfo reason]) ∧
    (env.facetsAtConfirm = env.facetsAtResolve →
      (RenameController.run env).effects =
        [.focusEditor, .showMessage reason env.facetsAtResolve.position]) ∧
    ∀ we : WorkspaceEdit, Effect.applyEdit we ∉ (RenameController.run env).effects := by
  have hprov : ¬(sessionSkeleton env).hasProvider = false := by
    rcases henv : env.provider with _ | ⟨q, qs⟩
    · exfalso
      have hempty : (sessionSkeleton env).resolveRenameLocation =
          .error (.undefinedAccess "resolveRenameLocation") := by
        show (RenameSkeleton.mk env.model env.position env.provider).resolveRenameLocation = _
        rw [henv]
        rfl
      rw [hempty] at hloc
      exact Except.noConfusion hloc
    · show ¬(RenameSkeleton.mk env.model env.position env.provider).hasProvider = false
      rw [henv]
      simp [RenameSkeleton.hasProvider]
  have heff : (RenameController.run env).effects =
      if editorStateValidate env.facetsAtConfirm env.facetsAtResolve = true then
        [Effect.focusEditor, Effect.showMessage reason env.facetsAtResolve.position]
      else
        [Effect.focusEditor, Effect.notifyInfo reason] := by
    unfold RenameController.run
    dsimp only
    rw [if_neg hprov, hloc]
    dsimp only
    rw [hinput]
    dsimp only
    rw [hres]
    dsimp only
    rw [hreason]
    rw [if_pos (show strTruthy (some reason) = true by simp [strTruthy, hne])]
    rcases hv : editorStateValidate env.facetsAtConfirm env.facetsAtResolve with _ | _
    · simp [hreason]
    · simp [hreason]
  refine ⟨?_, ?_, ?_⟩
  · intro hchanged
    rw [heff]
    have hv : editorStateValidate env.facetsAtConfirm env.facetsAtResolve = false := by
      rcases hb : editorStateValidate env.facetsAtConfirm env.facetsAtResolve with _ | _
      · rfl
      · exfalso
        have heq := (editorStateValidate_eq_true_iff _ _).mp hb
        rcases hchanged with h | h | h | h
        · exact h (congrArg EditorFacets.position heq)
        · exact h (congrArg EditorFacets.versionId heq)
        · exact h (congrArg EditorFacets.selection heq)
        · exact h (congrArg EditorFacets.scroll heq)
    rw [hv]
    simp
  · intro hsame
    rw [heff]
    rw [(editorStateValidate_eq_true_iff _ _).mpr hsame]
    simp
  · intro we
    rw [heff]
    rcases hb : editorStateValidate env.facetsAtConfirm env.facetsAtResolve with _ | _
    · simp
    · simp

/-- Witness for C4: in `staleEnv` the document version changed (1 to 2) while
the single provider rejected with "busy", so the reason is surfaced as a
passive notification; in `freshEnv` nothing changed and it is shown inline at
the current cursor. -/
theorem run_rejectReason_staleness_routing_witness :
    (RenameController.run staleEnv).effects = [.focusEditor, .notifyInfo "busy"] ∧
    (RenameController.run freshEnv).effects =
      [.focusEditor, .showMessage "busy" facets1.position] := by
  have hres1 : (sessionSkeleton staleEnv).provideRenameEdits "bar" 0 []
      (Range.getStartPosition { startLineNumber := 1, startColumn := 5,
                                endLineNumber := 1, endColumn := 8 })
      = .ok { edits := none, rejectReason := some "busy" } := by
    simp [RenameSkeleton.provideRenameEdits, sessionSkeleton, staleEnv, pBusy,
      String.intercalate]
    decide
  have hres2 : (sessionSkeleton freshEnv).provideRenameEdits "bar" 0 []
      (Range.getStartPosition { startLineNumber := 1, startColumn := 5,
                                endLineNumber := 1, endColumn := 8 })
      = .ok { edits := none, rejectReason := some "busy" } := by
    simp [RenameSkeleton.provideRenameEdits, sessionSkeleton, freshEnv, staleEnv, pBusy,
      String.intercalate]
    decide
  constructor
  · exact (run_rejectReason_staleness_routing staleEnv
      { range := { startLineNumber := 1, startColumn := 5, endLineNumber := 1, endColumn := 8 },
        text := "foo" }
      "bar" { edits := none, rejectReason := some "busy" } "busy"
      rfl (by decide) hres1 rfl (by decide)).1 (Or.inr (Or.inl (by decide)))
  · exact (run_rejectReason_staleness_routing freshEnv
      { range := { startLineNumber := 1, startColumn := 5, endLineNumber := 1, endColumn := 8 },
        text := "foo" }
      "bar" { edits := none, rejectReason := some "busy" } "busy"
      rfl (by decide) hres2 rfl (by decide)).2.1 rfl

/-- C8: the input widget receives the resolved range, the symbol text, and the
pre-fill offsets: when the editor selection is non-empty, single-line and
fully contained in the resolved range, the offsets are the selection
translated relative to the symbol text (start clamped at 0, end clamped at the
range's end column); otherwise the entire symbol text, offsets 0 to its
length, is pre-selected. -/
theorem run_selection_prefill (env : RunEnv) (loc : RenameLocation)
    (hprov : (sessionSkeleton env).hasProvider = true)
    (hloc : (sessionSkeleton env).resolveRenameLocation = .ok (some loc)) :
    ((!(Range.isEmpty env.selection) && !(Range.spansMultipleLines env.selection) &&
        Range.containsRange loc.range env.selection) = true →
      (RenameController.run env).inputRequest =
        some { range := loc.range, text := loc.text,
               selectionStart := max 0 (env.selection.startColumn - loc.range.startColumn),
               selectionEnd := min loc.range.endColumn env.selection.endColumn
                 - loc.range.startColumn }) ∧
    ((!(Range.isEmpty env.selection) && !(Range.spansMultipleLines env.selection) &&
        Range.containsRange loc.range env.selection) = false →
      (RenameController.run env).inputRequest =
        some { range := loc.range, text := loc.text,
               selectionStart := 0, selectionEnd := (loc.text.length : Int) }) := by
  have hreq : (RenameController.run env).inputRequest =
      some { range := loc.range, text := loc.text,
             selectionStart := (computePrefill loc env.selection).1,
             selectionEnd := (computePrefill loc env.selection).2 } := by
    unfold RenameController.run
    dsimp only
    rw [if_neg (by simp [hprov]), hloc]
    dsimp only
    repeat' split
    all_goals rfl
  constructor
  · intro hc
    rw [hreq]
    simp [computePrefill, hc]
  · intro hc
    rw [hreq]
    simp [computePrefill, hc]

/-- Witness for C8: in `prefillEnv` the resolved range covers columns [5,12)
with text "fooBarX" and the selection is [7,9) on the same line, so the widget
receives offsets (2,4). -/
theorem run_selection_prefill_witness :
    (RenameController.run prefillEnv).inputRequest =
      some { range := { startLineNumber := 1, startColumn := 5,
                        endLineNumber := 1, endColumn := 12 },
             text := "fooBarX", selectionStart := 2, selectionEnd := 4 } :=
  ((run_selection_prefill prefillEnv
      { range := { startLineNumber := 1, startColumn := 5,
                   endLineNumber := 1, endColumn := 12 },
        text := "fooBarX" }
      (by decide) (by decide)).1 (by decide)).trans (by decide)

end VSCodeRename
